import Mathlib

/-!
Shallow embedding of the rag-workshop retrieval and safety pipeline:
chunking (src/rag_demo/chunking.py), query router (src/rag_demo/router.py),
reranker (src/rag_demo/reranker.py) and the query-time orchestration of
src/rag_demo/__main__.py.  Text is modelled as `List Char`, JSON float
scores as rationals, fallible Python code as `Except String`.
-/

namespace RagDemo

/-! ### Chunking (src/rag_demo/chunking.py) -/

/-- `ChunkingConfig` from chunking.py: three stored attributes.  `strategy`
is modelled as the underlying string of the `str`-valued enum
`ChunkingStrategy`, whose members compare equal to their string values; a
plain string also represents an invalid discriminant. -/
structure ChunkingConfig where
  chunk_size : Int
  chunk_overlap : Int
  strategy : String

/-- `ChunkingConfig.__init__`: assigns the three attributes, performs no
checks, never raises. -/
def ChunkingConfig.init (chunk_size : Int) (chunk_overlap : Int)
    (strategy : String) : ChunkingConfig :=
  ⟨chunk_size, chunk_overlap, strategy⟩

/-- Consecutive windows of width `s + 1`: the list of slices
`text[i : i + chunk_size]` for `i` in `range(0, len(text), chunk_size)`
when `chunk_size = s + 1` is positive. -/
def chunkWindows (s : Nat) (t : List Char) : List (List Char) :=
  match t with
  | [] => []
  | c :: cs => (c :: cs).take (s + 1) :: chunkWindows s (cs.drop s)
termination_by t.length
decreasing_by simp only [List.length_drop, List.length_cons]; omega

/-- `chunk_text_naive` from chunking.py:
`[text[i : i + chunk_size] for i in range(0, len(text), chunk_size)]`.
Python `range` raises `ValueError` for a zero step and yields no indices for
a negative step, so a zero `chunk_size` is a call-time error and a negative
one gives `[]`. -/
def chunk_text_naive (text : List Char) (chunk_size : Int) :
    Except String (List (List Char)) :=
  if chunk_size = 0 then .error "range() arg 3 must not be zero"
  else if chunk_size < 0 then .ok []
  else .ok (chunkWindows (chunk_size.toNat - 1) text)

/-- `chunk_text` from chunking.py.  The recursive-character and
sentence-transformer strategies call external langchain splitters, which are
ports here, passed in as function parameters.  Branching mirrors the
`if/elif/else` on `config.strategy`, the final `else` raising
`ValueError` with the unknown-strategy message. -/
def chunk_text (recursiveSplit tokenSplit : List Char → Int → Int → List (List Char))
    (text : List Char) (config : ChunkingConfig) : Except String (List (List Char)) :=
  if config.strategy = "naive" then chunk_text_naive text config.chunk_size
  else if config.strategy = "recursive_character" then
    .ok (recursiveSplit text config.chunk_size config.chunk_overlap)
  else if config.strategy = "sentence_transformer" then
    .ok (tokenSplit text config.chunk_size config.chunk_overlap)
  else .error ("Unknown chunking strategy: " ++ config.strategy)

/-! ### Query router (src/rag_demo/router.py) -/

/-- Python whitespace (`str.strip`, regex `\s`), ASCII range. -/
def pyWs (c : Char) : Bool :=
  c == ' ' || c == '\t' || c == '\n' || c == '\r' || c == '\x0b' || c == '\x0c'

/-- `str.strip()`: remove leading and trailing whitespace. -/
def pyStrip (l : List Char) : List Char :=
  ((l.dropWhile pyWs).reverse.dropWhile pyWs).reverse

/-- Does `s` start with the literal character sequence `pat`? -/
def startsWithL (pat s : List Char) : Bool :=
  match pat, s with
  | [], _ => true
  | _ :: _, [] => false
  | a :: ps, b :: ss => a == b && startsWithL ps ss

/-- Consume one mandatory whitespace character and then any further
whitespace (regex `\s+`; maximal munch is exact here because every token
that follows starts with a non-whitespace character). -/
def wsSkip1 (s : List Char) : Option (List Char) :=
  match s with
  | c :: rest => if pyWs c then some (rest.dropWhile pyWs) else none
  | [] => none

/-- Match a `\s+`-separated token sequence at the start of `s`. -/
def matchSeqAt : List (List Char) → List Char → Bool
  | [], _ => true
  | [t], s => startsWithL t s
  | t :: t2 :: ts, s =>
    startsWithL t s &&
      match wsSkip1 (s.drop t.length) with
      | some s2 => matchSeqAt (t2 :: ts) s2
      | none => false

/-- `re.search`: does the token sequence match at some position of `s`? -/
def searchSeq (toks : List (List Char)) (s : List Char) : Bool :=
  match s with
  | [] => matchSeqAt toks []
  | _ :: rest => matchSeqAt toks s || searchSeq toks rest

/-- A compiled `(?i)` pattern of whitespace-separated literal tokens:
case-insensitive search.  The optional trailing `s?` of `passwords?` and
`api\s+keys?` does not affect whether a match exists, so those patterns
reduce to their mandatory stems. -/
def regexSearchCI (toks : List String) (s : List Char) : Bool :=
  searchSeq (toks.map (fun t => t.data.map Char.toLower)) (s.map Char.toLower)

/-- The compiled `DEFAULT_PATTERNS` of router.py, as search predicates. -/
def DEFAULT_MATCHERS : List (List Char → Bool) :=
  [ regexSearchCI ["ignore", "previous", "instructions"],
    regexSearchCI ["drop", "table"],
    regexSearchCI ["truncate", "table"],
    regexSearchCI ["rm", "-rf"],
    regexSearchCI ["format", "c:\\"],
    regexSearchCI ["delete", "from"],
    regexSearchCI ["password"],
    regexSearchCI ["api", "key"],
    regexSearchCI ["system", "prompt"],
    regexSearchCI ["powershell"],
    regexSearchCI ["malware"],
    regexSearchCI ["backdoor"],
    regexSearchCI ["virus"] ]

/-- `QueryRouter` from router.py: the configured pattern set (modelled by
the compiled `search` predicates) and the maximum length. -/
structure QueryRouter where
  blocked_patterns : List (List Char → Bool)
  max_length : Int

/-- `QueryRouter()` with its field defaults. -/
def defaultRouter : QueryRouter := ⟨DEFAULT_MATCHERS, 2048⟩

def emptyMsg : String := "Query is empty."

def lengthMsg : String :=
  "Query rejected: exceeds maximum allowed length. Please shorten your question and try again."

def maliciousMsg : String :=
  "Query rejected: detected potentially malicious intent (contains disallowed instructions)."

def acceptMsg : String := "Query accepted."

/-- `QueryRouter.inspect` from router.py: strip, empty check, length check
on the stripped query, then the pattern loop, else accept. -/
def QueryRouter.inspect (r : QueryRouter) (query : List Char) : Bool × String :=
  let cleaned := pyStrip query
  if cleaned.isEmpty then (false, emptyMsg)
  else if r.max_length < (cleaned.length : Int) then (false, lengthMsg)
  else if r.blocked_patterns.any (fun m => m cleaned) then (false, maliciousMsg)
  else (true, acceptMsg)

/-- `is_query_safe` from router.py: default router when none is given. -/
def is_query_safe (query : List Char) (router : Option QueryRouter) : Bool × String :=
  (router.getD defaultRouter).inspect query

/-! ### Reranker (src/rag_demo/reranker.py) -/

/-- The decoded JSON body of a successful scoring-backend call, in the three
response shapes `rerank` normalizes: a flat list of numbers, a list of
single-element lists, or a list of objects with an optional score field. -/
inductive ScoringResponse where
  | flat (ss : List ℚ)
  | nested (ss : List (List ℚ))
  | objs (ss : List (Option ℚ))

/-- One backend interaction: a transport failure
(`requests.exceptions.RequestException`) or a decoded response body. -/
inductive ScoringOutcome where
  | failure
  | success (resp : ScoringResponse)

/-- The list-of-lists arm of normalization: take `s[0]` of each element;
`s[0]` of an empty inner list raises `IndexError`, which `rerank` does not
catch. -/
def normNested : List (List ℚ) → Except String (List ℚ)
  | [] => .ok []
  | [] :: _ => .error "list index out of range"
  | (q :: _) :: rest =>
    match normNested rest with
    | .ok qs => .ok (q :: qs)
    | .error e => .error e

/-- Response normalization (reranker.py).  An empty response list skips
normalization in the source and then zips to nothing, which agrees with
`.ok []` here. -/
def normalizeScores : ScoringResponse → Except String (List ℚ)
  | .flat ss => .ok ss
  | .nested ss => normNested ss
  | .objs ss => .ok (ss.map (fun o => o.getD 0))

/-- Descending-by-score comparison used by the sort with a score key and
descending order. -/
def scoreGe (a b : String × ℚ) : Prop := b.2 ≤ a.2

instance : DecidableRel scoreGe :=
  fun a b => inferInstanceAs (Decidable (b.2 ≤ a.2))

instance : IsTotal (String × ℚ) scoreGe := ⟨fun a b => le_total b.2 a.2⟩

instance : IsTrans (String × ℚ) scoreGe := ⟨fun _ _ _ h1 h2 => le_trans h2 h1⟩

/-- Python's list sort with a key and descending order is a stable
descending sort; modelled by insertion sort, the canonical stable sort. -/
def sortDesc (l : List (String × ℚ)) : List (String × ℚ) :=
  List.insertionSort scoreGe l

/-- Python slice `l[:n]` for an `int` stop; a negative stop counts from the
end. -/
def pySliceStop (l : List α) (n : Int) : List α :=
  if 0 ≤ n then l.take n.toNat else l.take ((l.length : Int) + n).toNat

/-- Boolean test that a pair carries score `c` (used to state stability). -/
def hasScore (c : ℚ) (p : String × ℚ) : Bool := p.2 == c

/-- Success path of `Reranker.rerank`: normalize, zip with the documents,
stable descending sort, optional truncation. -/
def rerankSuccess (documents : List String) (top_n : Option Int)
    (resp : ScoringResponse) : Except String (List (String × ℚ)) :=
  match normalizeScores resp with
  | .error e => .error e
  | .ok scores =>
    match top_n with
    | some n => .ok (pySliceStop (sortDesc (documents.zip scores)) n)
    | none => .ok (sortDesc (documents.zip scores))

/-- `Reranker.rerank` from reranker.py, the backend interaction abstracted
into `outcome`.  The empty-documents check precedes the backend call; a
`RequestException` is caught and replaced by the original documents, each
with neutral score 1/2; other exceptions propagate as errors. -/
def rerank (query : String) (documents : List String) (top_n : Option Int)
    (outcome : ScoringOutcome) : Except String (List (String × ℚ)) :=
  if documents.isEmpty then .ok []
  else
    match outcome with
    | .failure => .ok (documents.map (fun d => (d, (1 : ℚ) / 2)))
    | .success resp => rerankSuccess documents top_n resp

/-! ### Query-time orchestration (src/rag_demo/__main__.py) -/

/-- Observable outcome of one query run: whether the router blocked it,
whether the answer backend was invoked, the assembled context and how many
chunks went into it. -/
structure QueryRun where
  blocked : Bool
  answerPortCalled : Bool
  context : String
  numChunks : Nat

/-- The context separator join of __main__.py. -/
def joinNN (l : List String) : String := String.intercalate "\n\n" l

/-- The router gate of __main__.py: when a router is configured, a rejected
query exits the process before any embedding or retrieval. -/
def routerGate (routerOpt : Option QueryRouter) (question : List Char) :
    Option String :=
  match routerOpt with
  | some r =>
    let d := is_query_safe question (some r)
    if d.1 then none else some d.2
  | none => none

/-- Stage 1 rows, optionally reranked (the texts used from here on). -/
def stage2Rows (question : List Char) (retrieved : List (ℚ × String))
    (useReranker : Bool) (rerankTopN : Int) (outcome : ScoringOutcome) :
    Except String (List String) :=
  if useReranker then
    match rerank (String.mk question) (retrieved.map (fun p => p.2))
        (some rerankTopN) outcome with
    | .ok rr => .ok (rr.map (fun p => p.1))
    | .error e => .error e
  else .ok (retrieved.map (fun p => p.2))

/-- Context assembly and the unconditional answer call. -/
def answeringStage (rows : List String) : QueryRun :=
  ⟨false, true, joinNN rows, rows.length⟩

/-- The query-time flow of __main__.py: optional router gate, the stage-1
rows handed back by the vector store, optional reranking, context assembly
and the unconditional answer call.  Embedding, vector store and answer
backends are opaque ports: `retrieved` is the store's response and the
answer call is recorded in `answerPortCalled`. -/
def runQuery (routerOpt : Option QueryRouter) (question : List Char)
    (retrieved : List (ℚ × String)) (useReranker : Bool) (rerankTopN : Int)
    (outcome : ScoringOutcome) : Except String QueryRun :=
  match routerGate routerOpt question with
  | some _ => .ok ⟨true, false, "", 0⟩
  | none =>
    match stage2Rows question retrieved useReranker rerankTopN outcome with
    | .error e => .error e
    | .ok rows => .ok (answeringStage rows)

/-! ### Helper lemmas: chunking -/

/-- Concatenating the naive windows restores the text. -/
theorem chunkWindows_join (s : Nat) (t : List Char) :
    (chunkWindows s t).flatten = t := by
  match t with
  | [] => simp [chunkWindows]
  | c :: cs =>
    have ih := chunkWindows_join s (cs.drop s)
    rw [chunkWindows]
    simp only [List.flatten_cons, ih]
    rw [← List.drop_succ_cons (n := s) (a := c)]
    exact List.take_append_drop (s + 1) (c :: cs)
termination_by t.length
decreasing_by simp only [List.length_drop, List.length_cons]; omega

/-- The window list is empty exactly for empty text. -/
theorem chunkWindows_eq_nil_iff (s : Nat) (t : List Char) :
    chunkWindows s t = [] ↔ t = [] := by
  cases t with
  | nil => simp [chunkWindows]
  | cons c cs => rw [chunkWindows]; simp

/-- Induction step carrier for `chunkWindows_mem_len`, with an explicit
length bound to induct on. -/
theorem chunkWindows_mem_len_aux (s : Nat) (n : Nat) :
    ∀ t : List Char, t.length ≤ n →
      ∀ c ∈ chunkWindows s t, 0 < c.length ∧ c.length ≤ s + 1 := by
  induction n with
  | zero =>
    intro t ht c hc
    have ht0 : t = [] := List.eq_nil_of_length_eq_zero (by omega)
    subst ht0
    simp [chunkWindows] at hc
  | succ n ih =>
    intro t ht c hc
    cases t with
    | nil => simp [chunkWindows] at hc
    | cons a as =>
      rw [chunkWindows] at hc
      rcases List.mem_cons.mp hc with hc | hc
      · subst hc
        simp only [List.length_take, List.length_cons]
        omega
      · refine ih (as.drop s) ?_ c hc
        simp only [List.length_cons] at ht
        simp only [List.length_drop]
        omega

/-- Every naive window is non-empty and at most `s + 1` characters long. -/
theorem chunkWindows_mem_len (s : Nat) (t : List Char) :
    ∀ c ∈ chunkWindows s t, 0 < c.length ∧ c.length ≤ s + 1 :=
  chunkWindows_mem_len_aux s t.length t le_rfl

/-- Induction step carrier for `chunkWindows_inner_len`, with an explicit
length bound to induct on. -/
theorem chunkWindows_inner_len_aux (s : Nat) (n : Nat) :
    ∀ t : List Char, t.length ≤ n →
      ∀ i, i + 1 < (chunkWindows s t).length →
        ∀ c, (chunkWindows s t)[i]? = some c → c.length = s + 1 := by
  induction n with
  | zero =>
    intro t ht i hi c hc
    have ht0 : t = [] := List.eq_nil_of_length_eq_zero (by omega)
    subst ht0
    simp [chunkWindows] at hi
  | succ n ih =>
    intro t ht i hi c hc
    cases t with
    | nil => simp [chunkWindows] at hi
    | cons a as =>
      rw [chunkWindows] at hi hc
      cases i with
      | zero =>
        simp only [List.getElem?_cons_zero, Option.some.injEq] at hc
        subst hc
        simp only [List.length_cons, Nat.add_lt_add_iff_right] at hi
        have hrest : chunkWindows s (as.drop s) ≠ [] := by
          intro h
          rw [h] at hi
          simp at hi
        have hdrop : as.drop s ≠ [] := by
          intro h
          exact hrest ((chunkWindows_eq_nil_iff s (as.drop s)).mpr h)
        have hlen : s < as.length := by
          by_contra h
          exact hdrop (List.drop_eq_nil_of_le (by omega))
        simp only [List.length_take, List.length_cons]
        omega
      | succ j =>
        simp only [List.length_cons, Nat.add_lt_add_iff_right] at hi
        simp only [List.getElem?_cons_succ] at hc
        refine ih (as.drop s) ?_ j hi c hc
        simp only [List.length_cons] at ht
        simp only [List.length_drop]
        omega

/-- Every naive window other than the last has exactly `s + 1` characters. -/
theorem chunkWindows_inner_len (s : Nat) (t : List Char) :
    ∀ i, i + 1 < (chunkWindows s t).length →
      ∀ c, (chunkWindows s t)[i]? = some c → c.length = s + 1 :=
  chunkWindows_inner_len_aux s t.length t le_rfl

/-! ### Claim theorems: chunking -/

/-- Claim C2 counterexample: an invalid size (zero) and overlap not below
the size are accepted silently at construction, and errors surface at call
time instead: an unknown strategy discriminant raises the unknown-strategy
`ValueError` inside `chunk_text`, and the naive strategy with a zero size
raises inside `chunk_text` as well — refuting both halves of the claim. -/
theorem chunking_config_validation_cex :
    ChunkingConfig.init 0 5 "naive" = ⟨0, 5, "naive"⟩ ∧
    chunk_text (fun _ _ _ => []) (fun _ _ _ => []) "abc".data
        (ChunkingConfig.init 1024 200 "bogus")
      = .error "Unknown chunking strategy: bogus" ∧
    chunk_text (fun _ _ _ => []) (fun _ _ _ => []) "abc".data
        (ChunkingConfig.init 0 5 "naive")
      = .error "range() arg 3 must not be zero" :=
  ⟨rfl, rfl, rfl⟩

/-- Claim C2 (amended): constructing a chunking configuration performs no
validation at all — any size, overlap and strategy string are stored as
given and construction never raises; instead, an unknown strategy
discriminant raises the unknown-strategy error when `chunk_text` is called,
and the naive strategy with size zero raises a range error when
`chunk_text` is called. -/
theorem chunking_config_unvalidated
    (size overlap : Int) (strat : String)
    (f g : List Char → Int → Int → List (List Char)) (text : List Char)
    (h1 : strat ≠ "naive") (h2 : strat ≠ "recursive_character")
    (h3 : strat ≠ "sentence_transformer") :
    ChunkingConfig.init size overlap strat = ⟨size, overlap, strat⟩ ∧
    chunk_text f g text (ChunkingConfig.init size overlap strat)
      = .error ("Unknown chunking strategy: " ++ strat) ∧
    chunk_text f g text (ChunkingConfig.init 0 overlap "naive")
      = .error "range() arg 3 must not be zero" := by
  refine ⟨rfl, ?_, ?_⟩
  · simp [chunk_text, ChunkingConfig.init, h1, h2, h3]
  · simp [chunk_text, ChunkingConfig.init, chunk_text_naive]

/-- Witness for `chunking_config_unvalidated` at a concrete invalid
strategy. -/
theorem chunking_config_unvalidated_witness :
    ChunkingConfig.init 7 3 "bogus" = ⟨7, 3, "bogus"⟩ ∧
    chunk_text (fun _ _ _ => []) (fun _ _ _ => []) "xy".data
        (ChunkingConfig.init 7 3 "bogus")
      = .error ("Unknown chunking strategy: " ++ "bogus") ∧
    chunk_text (fun _ _ _ => []) (fun _ _ _ => []) "xy".data
        (ChunkingConfig.init 0 3 "naive")
      = .error "range() arg 3 must not be zero" :=
  chunking_config_unvalidated 7 3 "bogus" (fun _ _ _ => []) (fun _ _ _ => [])
    "xy".data (by decide) (by decide) (by decide)

/-- Claim C8: with the naive strategy and a positive size, `chunk_text`
returns the consecutive non-overlapping windows of the text — their
concatenation is the text, every chunk except possibly the last has exactly
`size` characters, every chunk is non-empty and at most `size` characters —
the result does not depend on the configured overlap, and the result is
empty exactly when the text is (with no error in either case). -/
theorem chunk_text_naive_windows
    (f g : List Char → Int → Int → List (List Char)) (text : List Char)
    (size overlap overlap2 : Int) (hpos : 0 < size) :
    ∃ chunks,
      chunk_text f g text ⟨size, overlap, "naive"⟩ = .ok chunks ∧
      chunks.flatten = text ∧
      (∀ i, i + 1 < chunks.length →
        ∀ c, chunks[i]? = some c → c.length = size.toNat) ∧
      (∀ c ∈ chunks, 0 < c.length ∧ c.length ≤ size.toNat) ∧
      chunk_text f g text ⟨size, overlap2, "naive"⟩
        = chunk_text f g text ⟨size, overlap, "naive"⟩ ∧
      (text = [] ↔ chunks = []) := by
  have hz : ¬size = 0 := by omega
  have hneg : ¬size < 0 := by omega
  have hs : size.toNat - 1 + 1 = size.toNat := by omega
  refine ⟨chunkWindows (size.toNat - 1) text, ?_, ?_, ?_, ?_, ?_, ?_⟩
  · simp [chunk_text, chunk_text_naive, hz, hneg]
  · exact chunkWindows_join _ text
  · intro i hi c hc
    rw [← hs]
    exact chunkWindows_inner_len _ text i hi c hc
  · intro c hc
    have := chunkWindows_mem_len _ text c hc
    omega
  · simp [chunk_text]
  · exact (chunkWindows_eq_nil_iff _ text).symm

/-- Witness for `chunk_text_naive_windows` with size 3 on a 4-character
text. -/
theorem chunk_text_naive_windows_witness :
    (0 : Int) < 3 ∧
    ∃ chunks,
      chunk_text (fun _ _ _ => []) (fun _ _ _ => []) "abcd".data
          ⟨3, 1, "naive"⟩ = .ok chunks ∧
      chunks.flatten = "abcd".data ∧
      (∀ i, i + 1 < chunks.length →
        ∀ c, chunks[i]? = some c → c.length = (3 : Int).toNat) ∧
      (∀ c ∈ chunks, 0 < c.length ∧ c.length ≤ (3 : Int).toNat) ∧
      chunk_text (fun _ _ _ => []) (fun _ _ _ => []) "abcd".data
          ⟨3, 2, "naive"⟩
        = chunk_text (fun _ _ _ => []) (fun _ _ _ => []) "abcd".data
          ⟨3, 1, "naive"⟩ ∧
      ("abcd".data = [] ↔ chunks = []) :=
  ⟨by decide,
    chunk_text_naive_windows (fun _ _ _ => []) (fun _ _ _ => []) "abcd".data
      3 1 2 (by decide)⟩

/-- Claim C10: for a positive size, concatenating the chunks produced by
the naive strategy in order reconstructs the original text exactly. -/
theorem chunk_text_naive_roundtrip (text : List Char) (size : Int)
    (hpos : 0 < size) :
    ∃ chunks, chunk_text_naive text size = .ok chunks ∧ chunks.flatten = text := by
  have hz : ¬size = 0 := by omega
  have hneg : ¬size < 0 := by omega
  refine ⟨chunkWindows (size.toNat - 1) text, ?_, chunkWindows_join _ text⟩
  simp [chunk_text_naive, hz, hneg]

/-- Witness for `chunk_text_naive_roundtrip` with size 3 on a 4-character
text. -/
theorem chunk_text_naive_roundtrip_witness :
    (0 : Int) < 3 ∧
    ∃ chunks, chunk_text_naive "abcd".data 3 = .ok chunks ∧
      chunks.flatten = "abcd".data :=
  ⟨by decide, chunk_text_naive_roundtrip "abcd".data 3 (by decide)⟩

/-! ### Helper lemmas: router -/

/-- `dropWhile` is the identity when no element satisfies the predicate. -/
theorem dropWhile_eq_self_of (p : Char → Bool) (l : List Char)
    (h : ∀ c ∈ l, p c = false) : l.dropWhile p = l := by
  cases l with
  | nil => rfl
  | cons c t =>
    rw [List.dropWhile_cons, h c (by simp)]
    simp

/-- `dropWhile` empties a list whose elements all satisfy the predicate. -/
theorem dropWhile_eq_nil_of (p : Char → Bool) (l : List Char)
    (h : ∀ c ∈ l, p c = true) : l.dropWhile p = [] := by
  induction l with
  | nil => rfl
  | cons c t ih =>
    rw [List.dropWhile_cons, h c (by simp)]
    simp only [if_true]
    exact ih (fun x hx => h x (by simp [hx]))

/-- Stripping a string with no whitespace leaves it unchanged. -/
theorem pyStrip_of_no_ws (l : List Char) (h : ∀ c ∈ l, pyWs c = false) :
    pyStrip l = l := by
  unfold pyStrip
  rw [dropWhile_eq_self_of pyWs l h,
    dropWhile_eq_self_of pyWs l.reverse (fun c hc => h c (List.mem_reverse.mp hc)),
    List.reverse_reverse]

/-- Stripping an all-whitespace string gives the empty string. -/
theorem pyStrip_of_all_ws (l : List Char) (h : ∀ c ∈ l, pyWs c = true) :
    pyStrip l = [] := by
  unfold pyStrip
  rw [dropWhile_eq_nil_of pyWs l h]
  simp

/-- First router check: an empty stripped query is rejected as empty. -/
theorem inspect_empty (r : QueryRouter) (q : List Char)
    (h : pyStrip q = []) : r.inspect q = (false, emptyMsg) := by
  simp only [QueryRouter.inspect, h]
  rfl

/-- Second router check: a non-empty stripped query longer than the limit is
rejected with the length message, whatever its content. -/
theorem inspect_too_long (r : QueryRouter) (q : List Char)
    (h1 : pyStrip q ≠ [])
    (h2 : r.max_length < ((pyStrip q).length : Int)) :
    r.inspect q = (false, lengthMsg) := by
  simp only [QueryRouter.inspect]
  rw [if_neg (by simpa using h1), if_pos h2]

/-- Third router check: a pattern match on a short-enough non-empty query is
rejected with the malicious-intent message. -/
theorem inspect_malicious (r : QueryRouter) (q : List Char)
    (h1 : pyStrip q ≠ [])
    (h2 : ¬r.max_length < ((pyStrip q).length : Int))
    (h3 : r.blocked_patterns.any (fun m => m (pyStrip q)) = true) :
    r.inspect q = (false, maliciousMsg) := by
  simp only [QueryRouter.inspect]
  rw [if_neg (by simpa using h1), if_neg h2, if_pos h3]

/-- Final router outcome: no check fires, the query is accepted. -/
theorem inspect_accept (r : QueryRouter) (q : List Char)
    (h1 : pyStrip q ≠ [])
    (h2 : ¬r.max_length < ((pyStrip q).length : Int))
    (h3 : r.blocked_patterns.any (fun m => m (pyStrip q)) = false) :
    r.inspect q = (true, acceptMsg) := by
  simp only [QueryRouter.inspect]
  rw [if_neg (by simpa using h1), if_neg h2, if_neg (by simp [h3])]

/-! ### Claim theorems: router -/

/-- Claim C5 counterexample: a query of 2049 spaces exceeds the default
`max_length` of 2048, yet `inspect` rejects it with the empty-query reason,
not the exceeds-maximum-length reason, because the length check runs on the
whitespace-stripped query. -/
theorem inspect_overlength_raw_cex :
    2048 < (List.replicate 2049 ' ').length ∧
    defaultRouter.inspect (List.replicate 2049 ' ') = (false, emptyMsg) ∧
    emptyMsg ≠ lengthMsg := by
  refine ⟨by rw [List.length_replicate]; omega, ?_, by decide⟩
  refine inspect_empty defaultRouter _ (pyStrip_of_all_ws _ ?_)
  intro c hc
  rw [List.eq_of_mem_replicate hc]
  rfl

/-- Claim C5 (amended): for every query whose whitespace-stripped form is
longer than the default `max_length` of 2048, `inspect` rejects it with the
exceeds-maximum-length message, regardless of content. -/
theorem inspect_overlength_trimmed (q : List Char)
    (h : 2048 < (pyStrip q).length) :
    defaultRouter.inspect q = (false, lengthMsg) := by
  have h1 : pyStrip q ≠ [] := by
    intro h0
    rw [h0] at h
    simp at h
  refine inspect_too_long defaultRouter q h1 ?_
  show (2048 : Int) < ((pyStrip q).length : Int)
  exact_mod_cast h

/-- Witness for `inspect_overlength_trimmed`: 2049 letters. -/
theorem inspect_overlength_trimmed_witness :
    defaultRouter.inspect (List.replicate 2049 'a') = (false, lengthMsg) := by
  refine inspect_overlength_trimmed _ ?_
  rw [pyStrip_of_no_ws]
  · rw [List.length_replicate]
    omega
  · intro c hc
    rw [List.eq_of_mem_replicate hc]
    rfl

/-- Claim C7: `inspect` evaluates its checks in a fixed order with the
first match winning — strip, reject empty; then reject a stripped query
longer than the limit; then reject on any configured pattern match; else
accept — and in particular a whitespace-only query is rejected as empty and
a query both over the limit and matching a pattern gets the length reason. -/
theorem inspect_first_match_wins (r : QueryRouter) (q : List Char) :
    (pyStrip q = [] → r.inspect q = (false, emptyMsg)) ∧
    (pyStrip q ≠ [] → r.max_length < ((pyStrip q).length : Int) →
      r.inspect q = (false, lengthMsg)) ∧
    (pyStrip q ≠ [] → ¬r.max_length < ((pyStrip q).length : Int) →
      r.blocked_patterns.any (fun m => m (pyStrip q)) = true →
      r.inspect q = (false, maliciousMsg)) ∧
    (pyStrip q ≠ [] → ¬r.max_length < ((pyStrip q).length : Int) →
      r.blocked_patterns.any (fun m => m (pyStrip q)) = false →
      r.inspect q = (true, acceptMsg)) ∧
    ((∀ c ∈ q, pyWs c = true) → r.inspect q = (false, emptyMsg)) :=
  ⟨inspect_empty r q,
   inspect_too_long r q,
   inspect_malicious r q,
   inspect_accept r q,
   fun h => inspect_empty r q (pyStrip_of_all_ws q h)⟩

/-- Witness for `inspect_first_match_wins` on the default router: a
whitespace-only query is rejected as empty, an SQL-injection phrase is
rejected as malicious, and a harmless short query is accepted. -/
theorem inspect_first_match_wins_witness :
    defaultRouter.inspect " \t ".data = (false, emptyMsg) ∧
    defaultRouter.inspect "please DROP   TABLE users".data
      = (false, maliciousMsg) ∧
    defaultRouter.inspect "what is a vector index?".data
      = (true, acceptMsg) :=
  ⟨(inspect_first_match_wins defaultRouter " \t ".data).1 (by decide),
   (inspect_first_match_wins defaultRouter
      "please DROP   TABLE users".data).2.2.1 (by decide) (by decide) (by decide),
   (inspect_first_match_wins defaultRouter
      "what is a vector index?".data).2.2.2.1 (by decide) (by decide) (by decide)⟩

/-! ### Helper lemmas: reranker -/

/-- The stable sort is a permutation, so it preserves length. -/
theorem sortDesc_length (l : List (String × ℚ)) :
    (sortDesc l).length = l.length :=
  (List.perm_insertionSort scoreGe l).length_eq

/-- Inserting a pair whose score is not `c` does not change the score-`c`
sublist. -/
theorem filter_orderedInsert_ne (c : ℚ) (a : String × ℚ)
    (l : List (String × ℚ)) (h : a.2 ≠ c) :
    (List.orderedInsert scoreGe a l).filter (hasScore c)
      = l.filter (hasScore c) := by
  induction l with
  | nil => simp [List.orderedInsert, hasScore, h]
  | cons b t ih =>
    by_cases hab : scoreGe a b
    · rw [List.orderedInsert, if_pos hab]
      simp [List.filter_cons, hasScore, h]
    · rw [List.orderedInsert, if_neg hab]
      simp only [List.filter_cons]
      rw [ih]

/-- Inserting a pair whose score is `c` puts it in front of the score-`c`
sublist: the insertion point passes only strictly larger scores. -/
theorem filter_orderedInsert_eq (c : ℚ) (a : String × ℚ)
    (l : List (String × ℚ)) (h : a.2 = c) :
    (List.orderedInsert scoreGe a l).filter (hasScore c)
      = a :: l.filter (hasScore c) := by
  induction l with
  | nil => simp [List.orderedInsert, hasScore, h]
  | cons b t ih =>
    by_cases hab : scoreGe a b
    · rw [List.orderedInsert, if_pos hab]
      simp [List.filter_cons, hasScore, h]
    · have hbc : ¬b.2 = c := by
        simp only [scoreGe, not_le] at hab
        intro hb
        rw [h] at hab
        rw [hb] at hab
        exact lt_irrefl c hab
      have hb : hasScore c b = false := by simp [hasScore, hbc]
      rw [List.orderedInsert, if_neg hab]
      simp [List.filter_cons, hb, ih]

/-- Stability of the descending sort: for every score value, the pairs
carrying that score appear in the sorted output in their original order. -/
theorem sortDesc_filter (l : List (String × ℚ)) (c : ℚ) :
    (sortDesc l).filter (hasScore c) = l.filter (hasScore c) := by
  induction l with
  | nil => rfl
  | cons a t ih =>
    show (List.orderedInsert scoreGe a (sortDesc t)).filter (hasScore c)
      = (a :: t).filter (hasScore c)
    by_cases h : a.2 = c
    · rw [filter_orderedInsert_eq c a _ h, ih]
      simp [List.filter_cons, hasScore, h]
    · rw [filter_orderedInsert_ne c a _ h, ih]
      simp [List.filter_cons, hasScore, h]

/-- The sorted output of the success path, spelt out. -/
theorem rerank_success_eq (query : String) (d : String) (ds : List String)
    (resp : ScoringResponse) (scores : List ℚ)
    (hn : normalizeScores resp = .ok scores) :
    rerank query (d :: ds) none (.success resp)
      = .ok (sortDesc ((d :: ds).zip scores)) ∧
    ∀ n : Int, rerank query (d :: ds) (some n) (.success resp)
      = .ok (pySliceStop (sortDesc ((d :: ds).zip scores)) n) := by
  constructor
  · simp [rerank, rerankSuccess, hn]
  · intro n
    simp [rerank, rerankSuccess, hn]

/-! ### Claim theorems: reranker -/

/-- Claim C4: when the scoring backend call fails, `rerank` raises nothing
and returns every input document in original order with neutral score 1/2,
whatever `top_n` is. -/
theorem rerank_failure_fallback (query : String) (docs : List String)
    (top_n : Option Int) (h : docs ≠ []) :
    rerank query docs top_n .failure
      = .ok (docs.map (fun d => (d, (1 : ℚ) / 2))) := by
  cases docs with
  | nil => exact absurd rfl h
  | cons d ds => simp [rerank]

/-- Witness for `rerank_failure_fallback`: two documents, `top_n = 1`. -/
theorem rerank_failure_fallback_witness :
    (["a", "b"] : List String) ≠ [] ∧
    rerank "q" ["a", "b"] (some 1) .failure
      = .ok [("a", (1 : ℚ) / 2), ("b", (1 : ℚ) / 2)] :=
  ⟨by decide, rerank_failure_fallback "q" ["a", "b"] (some 1) (by decide)⟩

/-- Claim C3 counterexample: with two documents, `top_n = 1` and a failing
backend, `rerank` returns both documents — length 2, not
`min(top_n, len(docs)) = 1`. -/
theorem rerank_length_cex :
    (rerank "q" ["a", "b"] (some 1) .failure).map List.length = .ok 2 ∧
    min 1 (["a", "b"] : List String).length = 1 ∧
    (2 : Nat) ≠ 1 :=
  ⟨rfl, rfl, by decide⟩

/-- Claim C3 (amended): when the backend succeeds and supplies at least one
score per document, the output length is `min(top_n, len(docs))` for a
non-negative `top_n` and `len(docs)` when `top_n` is unset; when the
backend fails, the output length is `len(docs)` regardless of `top_n`. -/
theorem rerank_length_contract (query : String) (docs : List String)
    (resp : ScoringResponse) (scores : List ℚ) (n : Int)
    (hn : normalizeScores resp = .ok scores)
    (hlen : docs.length ≤ scores.length) (hn0 : 0 ≤ n) :
    (∃ r, rerank query docs (some n) (.success resp) = .ok r ∧
      r.length = min n.toNat docs.length) ∧
    (∃ r, rerank query docs none (.success resp) = .ok r ∧
      r.length = docs.length) ∧
    (∀ m : Option Int, ∃ r, rerank query docs m .failure = .ok r ∧
      r.length = docs.length) := by
  cases docs with
  | nil =>
    refine ⟨⟨[], by simp [rerank], by simp⟩, ⟨[], by simp [rerank], rfl⟩,
      fun m => ⟨[], by simp [rerank], rfl⟩⟩
  | cons d ds =>
    have hzip : ((d :: ds).zip scores).length = (d :: ds).length := by
      rw [List.length_zip]
      omega
    have hsort : (sortDesc ((d :: ds).zip scores)).length = (d :: ds).length := by
      rw [sortDesc_length, hzip]
    obtain ⟨hnone, hsome⟩ := rerank_success_eq query d ds resp scores hn
    refine ⟨⟨_, hsome n, ?_⟩, ⟨_, hnone, hsort⟩, fun m => ?_⟩
    · rw [pySliceStop, if_pos hn0, List.length_take, hsort]
    · exact ⟨(d :: ds).map (fun x => (x, (1 : ℚ) / 2)), by simp [rerank],
        by simp⟩

/-- Witness for `rerank_length_contract`: three documents, three scores,
`top_n = 2`. -/
theorem rerank_length_contract_witness :
    normalizeScores (.flat [1, 2, 3]) = .ok [1, 2, 3] ∧
    (["a", "b", "c"] : List String).length ≤ ([1, 2, 3] : List ℚ).length ∧
    (0 : Int) ≤ 2 ∧
    ((∃ r, rerank "q" ["a", "b", "c"] (some 2) (.success (.flat [1, 2, 3]))
        = .ok r ∧ r.length = min (2 : Int).toNat ["a", "b", "c"].length) ∧
     (∃ r, rerank "q" ["a", "b", "c"] none (.success (.flat [1, 2, 3]))
        = .ok r ∧ r.length = ["a", "b", "c"].length) ∧
     (∀ m : Option Int, ∃ r, rerank "q" ["a", "b", "c"] m .failure = .ok r ∧
        r.length = ["a", "b", "c"].length)) :=
  ⟨rfl, by decide, by decide,
    rerank_length_contract "q" ["a", "b", "c"] (.flat [1, 2, 3]) [1, 2, 3] 2
      rfl (by decide) (by decide)⟩

/-- Claim C6: on a successful backend call the pairs `rerank` returns are
sorted by descending score, pairs with equal scores keep their original
relative order, and a non-negative `top_n` only truncates that stably
sorted list to a prefix (which is therefore also sorted). -/
theorem rerank_sorted_stable (query : String) (docs : List String)
    (resp : ScoringResponse) (scores : List ℚ) (r : List (String × ℚ))
    (hn : normalizeScores resp = .ok scores)
    (hr : rerank query docs none (.success resp) = .ok r) :
    List.Sorted scoreGe r ∧
    (∀ c : ℚ, r.filter (hasScore c) = (docs.zip scores).filter (hasScore c)) ∧
    (∀ n : Int, 0 ≤ n →
      rerank query docs (some n) (.success resp) = .ok (r.take n.toNat) ∧
      List.Sorted scoreGe (r.take n.toNat)) := by
  cases docs with
  | nil =>
    have hr0 : r = [] := by
      simp [rerank] at hr
      exact hr
    subst hr0
    refine ⟨List.sorted_nil, fun c => by simp, fun n hn0 => ?_⟩
    simp [rerank]
  | cons d ds =>
    obtain ⟨hnone, hsome⟩ := rerank_success_eq query d ds resp scores hn
    rw [hnone] at hr
    have hr0 : r = sortDesc ((d :: ds).zip scores) := by
      cases hr
      rfl
    subst hr0
    refine ⟨List.sorted_insertionSort scoreGe _,
      fun c => sortDesc_filter _ c, fun n hn0 => ?_⟩
    refine ⟨?_, List.Pairwise.sublist (List.take_sublist _ _)
      (List.sorted_insertionSort scoreGe _)⟩
    rw [hsome n, pySliceStop, if_pos hn0]

/-- Witness for `rerank_sorted_stable`: scores `[1, 2, 1]` with a tie — the
tied documents keep their original relative order behind the top score. -/
theorem rerank_sorted_stable_witness :
    List.Sorted scoreGe [(("b" : String), (2 : ℚ)), ("a", 1), ("c", 1)] ∧
    ([(("b" : String), (2 : ℚ)), ("a", 1), ("c", 1)].filter (hasScore 1)
      = ((["a", "b", "c"] : List String).zip ([1, 2, 1] : List ℚ)).filter
          (hasScore 1)) := by
  have h := rerank_sorted_stable "q" ["a", "b", "c"] (.flat [1, 2, 1])
    [1, 2, 1] [("b", 2), ("a", 1), ("c", 1)] rfl (by rfl)
  exact ⟨h.1, h.2.1 1⟩

/-- Claim C9: when the backend succeeds but yields fewer scores than there
are documents, the zip silently drops the unscored trailing documents: with
`top_n` unset the output length is `min(len(docs), len(scores))`. -/
theorem rerank_drops_unscored (query : String) (docs : List String)
    (resp : ScoringResponse) (scores : List ℚ)
    (hn : normalizeScores resp = .ok scores) :
    ∃ r, rerank query docs none (.success resp) = .ok r ∧
      r.length = min docs.length scores.length := by
  cases docs with
  | nil => exact ⟨[], by simp [rerank], by simp⟩
  | cons d ds =>
    obtain ⟨hnone, _⟩ := rerank_success_eq query d ds resp scores hn
    exact ⟨_, hnone, by rw [sortDesc_length, List.length_zip]⟩

/-- Witness for `rerank_drops_unscored`: three documents, one score — only
one pair comes back. -/
theorem rerank_drops_unscored_witness :
    ∃ r, rerank "q" ["a", "b", "c"] none (.success (.flat [1])) = .ok r ∧
      r.length = min (["a", "b", "c"] : List String).length
        ([1] : List ℚ).length :=
  rerank_drops_unscored "q" ["a", "b", "c"] (.flat [1]) [1] rfl

/-! ### Claim theorems: orchestrator -/

/-- Claim C1 counterexample: with the router disabled and an empty
retrieval, the assembled context is empty, yet the answer port is invoked —
there is no insufficient-context short-circuit in the query flow. -/
theorem answer_called_on_empty_context_cex :
    (runQuery none "hi".data [] false 5 .failure).map QueryRun.answerPortCalled
      = .ok true ∧
    (runQuery none "hi".data [] false 5 .failure).map QueryRun.context
      = .ok "" :=
  ⟨rfl, rfl⟩

/-- Claim C1 (amended): whenever a query passes routing (is not blocked),
the orchestrator invokes the answer port unconditionally — also when the
assembled context is empty; no insufficient-context result exists. -/
theorem answer_port_always_called (routerOpt : Option QueryRouter)
    (question : List Char) (retrieved : List (ℚ × String))
    (useReranker : Bool) (rerankTopN : Int) (outcome : ScoringOutcome)
    (run : QueryRun)
    (h : runQuery routerOpt question retrieved useReranker rerankTopN outcome
      = .ok run)
    (hb : run.blocked = false) :
    run.answerPortCalled = true := by
  unfold runQuery at h
  split at h
  · cases h
    simp at hb
  · split at h
    · exact Except.noConfusion h
    · cases h
      rfl

/-- Witness for `answer_port_always_called`: router disabled, nothing
retrieved, reranker off — the answer port is still called on the empty
context. -/
theorem answer_port_always_called_witness :
    QueryRun.answerPortCalled ⟨false, true, "", 0⟩ = true :=
  answer_port_always_called none "hi".data [] false 5 .failure
    ⟨false, true, "", 0⟩ rfl rfl

end RagDemo
